import Mathlib

/-
Verification of the Digital Brain note-store engine (FastAPI backend,
`app/main.py` and `app/ai_bridge.py`) against its natural-language
specification.  The Python source is shallowly embedded below: pure
functions become Lean functions on `String` / `List Char`, the SQLAlchemy
session becomes an explicit `Store` value threaded through the handlers,
`datetime` values become a `PyDateTime` record, and the external
collaborators (AI classifier, summarizer, markdown exporter, SMTP
delivery) become explicit parameters holding the response the collaborator
would give for the one call the handler makes.
-/

/-! ### Python character and string primitives

`str.lower`, `str.strip`, `\s`-normalization and substring containment as
used by `_normalize` / `_similar` in both `app/main.py` and
`app/ai_bridge.py` (the two copies of `_normalize` and `_similar` are
textually identical, so they are embedded once).
-/

/-- Whitespace characters of Python's `str.strip` and of the regex class
`\s` (ASCII range, which covers every string the engine handles). -/
def isPyWs (c : Char) : Bool :=
  c = ' ' || c = '\t' || c = '\n' || c = '\x0d' || c = '\x0b' || c = '\x0c'

/-- Model of Python `str.lower` on one character: ASCII case folding plus
the accented letters that occur in this code base (the Spanish alphabet
and the mojibake letter `Ã` appearing in the `_CMD_VERBS` pattern). -/
def pyLowerChar (c : Char) : Char :=
  if 'A' ≤ c && c ≤ 'Z' then Char.ofNat (c.toNat + 32)
  else if c = 'Ñ' then 'ñ'
  else if c = 'Á' then 'á'
  else if c = 'É' then 'é'
  else if c = 'Í' then 'í'
  else if c = 'Ó' then 'ó'
  else if c = 'Ú' then 'ú'
  else if c = 'Ü' then 'ü'
  else if c = 'Ã' then 'ã'
  else c

/-- Model of Python `str.lower`. -/
def pyLower (s : String) : String :=
  ⟨s.data.map pyLowerChar⟩

/-- Model of Python `str.strip()` (no argument): drop whitespace from both
ends. -/
def pyStrip (s : String) : String :=
  ⟨((s.data.dropWhile isPyWs).reverse.dropWhile isPyWs).reverse⟩

/-- One pass of `re.sub(r'\s+', ' ', ·)`: every maximal run of whitespace
becomes a single space.  The flag records whether the previous character
belonged to a whitespace run. -/
def collapseWsAux : List Char → Bool → List Char
  | [], _ => []
  | c :: cs, prevWs =>
    if isPyWs c then
      if prevWs then collapseWsAux cs true
      else ' ' :: collapseWsAux cs true
    else c :: collapseWsAux cs false

/-- Embedding of `_normalize` (`app/main.py` line 86, `app/ai_bridge.py`
line 29): `re.sub(r'\s+', ' ', s.lower().strip())`. -/
def pyNormalize (s : String) : String :=
  ⟨collapseWsAux (pyStrip (pyLower s)).data false⟩

/-- Python substring containment `needle in hay` on the character lists
(`[] ⊆ anything` holds, as in Python). -/
def containsSub (hay needle : List Char) : Bool :=
  needle.isPrefixOf hay ||
    match hay with
    | [] => false
    | _ :: t => containsSub t needle

/-- Python's `needle in hay` on strings. -/
def pyIn (needle hay : String) : Bool :=
  containsSub hay.data needle.data

/-- Embedding of `_similar` (`app/main.py` lines 100-102 and
`app/ai_bridge.py` lines 33-35): normalize both strings, then equal, or the
FIRST argument has length `> 3` and one contains the other.  (`_normalize`
is embedded as `pyNormalize` only because `normalize` already names a
Mathlib root declaration.) -/
def similar (a b : String) : Bool :=
  let a := pyNormalize a
  let b := pyNormalize b
  a == b || (decide (3 < a.length) && (pyIn a b || pyIn b a))

/-! ### Regex primitives

The engine uses four fixed regular expressions.  Each is hand-compiled
into a recursive matcher with Python's leftmost, greedy, backtracking
semantics.  `\b` is the usual word boundary; for the `re.UNICODE` word
class, we classify as word characters the ASCII alphanumerics plus `_`
and the accented letters of the domain alphabet.
-/

/-- Word characters for `\b` / `\w` on the alphabet this engine sees
(ASCII alphanumerics, underscore, Spanish accented letters).  `±` — which
occurs in the mojibake `_CMD_VERBS` class — is a symbol, not a word
character, exactly as in Python. -/
def isWordChar (c : Char) : Bool :=
  c.isAlphanum || c = '_' ||
    c = 'á' || c = 'é' || c = 'í' || c = 'ó' || c = 'ú' || c = 'ñ' ||
    c = 'ü' || c = 'ã' || c = 'Á' || c = 'É' || c = 'Í' || c = 'Ó' ||
    c = 'Ú' || c = 'Ñ' || c = 'Ü' || c = 'Ã'

/-- Word-ness of an optional character; beyond either end of the string
counts as non-word. -/
def isWordOpt : Option Char → Bool
  | none => false
  | some c => isWordChar c

/-- Regex word boundary `\b` between a previous and a next character. -/
def wordBoundary (prev next : Option Char) : Bool :=
  isWordOpt prev != isWordOpt next

/-- Numeric value of a decimal digit character. -/
def digitVal (c : Char) : Nat :=
  c.toNat - '0'.toNat

/-! #### `_TIME_IN_NOTE_RE` (`app/main.py` lines 29-32)

`\ba\s+las?\s+(\d{1,2})(?:[:.h](\d{2}))?\s*(?:h(?:oras?)?)?\b`, searched
over the lowercased note text.  The matcher below follows the pattern
left to right; alternatives are tried in Python's order (greedy first)
with backtracking via `Option.orElse`.
-/

/-- Trailing `\b` of `_TIME_IN_NOTE_RE` given the last consumed character
and the remaining input. -/
def timeBoundaryEnd (last : Char) (cs : List Char) : Option Unit :=
  if wordBoundary (some last) cs.head? then some () else none

/-- The `(?:oras?)?` tail after a consumed `h`: greedily `oras`, then
`ora`, then nothing, each followed by the final `\b`. -/
def timeOrasOpt (last : Char) (cs : List Char) : Option Unit :=
  (match cs with
   | 'o' :: 'r' :: 'a' :: 's' :: rest => timeBoundaryEnd 's' rest
   | _ => none) <|>
  (match cs with
   | 'o' :: 'r' :: 'a' :: rest => timeBoundaryEnd 'a' rest
   | _ => none) <|>
  timeBoundaryEnd last cs

/-- The `(?:h(?:oras?)?)?\b` tail: greedily consume `h` (with its
optional `oras?`), else just the final `\b`. -/
def timeHGroup (last : Char) (cs : List Char) : Option Unit :=
  (match cs with
   | 'h' :: rest => timeOrasOpt 'h' rest
   | _ => none) <|>
  timeBoundaryEnd last cs

/-- The `\s*(?:h(?:oras?)?)?\b` tail: greedily consume whitespace, backing
off one character at a time. -/
def timeWsTail (last : Char) : List Char → Option Unit
  | [] => timeHGroup last []
  | c :: rest =>
    if isPyWs c then (timeWsTail c rest) <|> timeHGroup last (c :: rest)
    else timeHGroup last (c :: rest)

/-- The `(?:[:.h](\d{2}))?\s*(?:h(?:oras?)?)?\b` tail after the hour
digits: greedily try the minutes group, else proceed without it.  Returns
the captured minutes, if any. -/
def timeMinutesTail (last : Char) (cs : List Char) : Option (Option Nat) :=
  (match cs with
   | c :: d1 :: d2 :: rest =>
     if (c = ':' || c = '.' || c = 'h') && d1.isDigit && d2.isDigit then
       (timeWsTail d2 rest).map (fun _ => some (10 * digitVal d1 + digitVal d2))
     else none
   | _ => none) <|>
  (timeWsTail last cs).map (fun _ => (none : Option Nat))

/-- The `(\d{1,2})` hour group (greedy: two digits, then one) and the
whole remaining tail.  `cs` starts at the first hour digit. -/
def timeHourGroup : List Char → Option (Nat × Option Nat)
  | c :: d :: rest =>
    if c.isDigit then
      if d.isDigit then
        ((timeMinutesTail d rest).map (fun mm => (10 * digitVal c + digitVal d, mm))) <|>
        ((timeMinutesTail c (d :: rest)).map (fun mm => (digitVal c, mm)))
      else (timeMinutesTail c (d :: rest)).map (fun mm => (digitVal c, mm))
    else none
  | [c] =>
    if c.isDigit then (timeMinutesTail c []).map (fun mm => (digitVal c, mm))
    else none
  | [] => none

/-- The `\s+` before the hour digits (at least one whitespace character,
then maximal munch — nothing after it can match whitespace, so greediness
needs no backtracking here). -/
def timeWsThenHour : List Char → Option (Nat × Option Nat)
  | c :: rest => if isPyWs c then timeWsMore rest else none
  | [] => none
where
  timeWsMore : List Char → Option (Nat × Option Nat)
  | c :: rest => if isPyWs c then timeWsMore rest else timeHourGroup (c :: rest)
  | [] => none

/-- The `las?\s+` part.  A consumed `s` must be followed by whitespace,
and if it is not, the `s?`-empty alternative needs whitespace where the
`s` stands — impossible — so no cross-backtracking arises. -/
def timeAfterLa : List Char → Option (Nat × Option Nat)
  | 's' :: rest => timeWsThenHour rest <|> none
  | cs => timeWsThenHour cs

/-- The `\s+la` part after the leading `a` (maximal whitespace munch,
then the literal `la`). -/
def timeAfterA : List Char → Option (Nat × Option Nat)
  | c :: rest => if isPyWs c then timeAfterAWs rest else none
  | [] => none
where
  timeAfterAWs : List Char → Option (Nat × Option Nat)
  | c :: rest =>
    if isPyWs c then timeAfterAWs rest
    else match c, rest with
      | 'l', 'a' :: rest2 => timeAfterLa rest2
      | _, _ => none
  | [] => none

/-- Attempt `_TIME_IN_NOTE_RE` anchored at the current position, `prev`
being the character just before it (for the leading `\b`). -/
def timeMatchAt (prev : Option Char) : List Char → Option (Nat × Option Nat)
  | 'a' :: rest =>
    if wordBoundary prev (some 'a') then timeAfterA rest else none
  | _ => none

/-- Leftmost search of `_TIME_IN_NOTE_RE`, scanning start positions left
to right. -/
def timeSearchAux (prev : Option Char) : List Char → Option (Nat × Option Nat)
  | [] => none
  | c :: rest => timeMatchAt prev (c :: rest) <|> timeSearchAux (some c) rest

/-- `_TIME_IN_NOTE_RE.search(s)`: the `(hour, minutes?)` captures of the
leftmost match, if any. -/
def timeSearch (s : String) : Option (Nat × Option Nat) :=
  timeSearchAux none s.data

/-! #### `_TIME_FIX_RE` substitution (`app/main.py` lines 89-98)

`re.sub(r'\b(\d{1,2}) (\d{2})\b', repl, text)` where `repl` inserts a
colon between the two digit groups when they are a valid hour/minute pair
and otherwise returns the match unchanged.  Scanning resumes after each
match, and a failed attempt advances one character, as `re.sub` does.
-/

/-- Separator the replacement function emits between the digit groups:
`:` for an in-range hour/minute pair, the original space otherwise. -/
def fixSep (h m : Nat) : Char :=
  if h ≤ 23 && m ≤ 59 then ':' else ' '

/-- Embedding of `_fix_time_colons` on the character list.  The first arm
is the two-digit-hour shape `\b\d\d \d\d\b`, whose else-branch can never
hide a one-digit-hour match at the same position (that would need a space
where this arm fixes a digit or a space); the second arm is the
one-digit-hour shape `\b\d \d\d\b`. -/
def fixScan (prev : Option Char) : List Char → List Char
  | a :: b :: ' ' :: c :: d :: rest =>
    if wordBoundary prev (some a) && a.isDigit && b.isDigit && c.isDigit &&
        d.isDigit && wordBoundary (some d) rest.head? then
      a :: b :: fixSep (10 * digitVal a + digitVal b) (10 * digitVal c + digitVal d) ::
        c :: d :: fixScan (some d) rest
    else a :: fixScan (some a) (b :: ' ' :: c :: d :: rest)
  | a :: ' ' :: c :: d :: rest =>
    if wordBoundary prev (some a) && a.isDigit && c.isDigit && d.isDigit &&
        wordBoundary (some d) rest.head? then
      a :: fixSep (digitVal a) (10 * digitVal c + digitVal d) :: c :: d ::
        fixScan (some d) rest
    else a :: fixScan (some a) (' ' :: c :: d :: rest)
  | c :: rest => c :: fixScan (some c) rest
  | [] => []

/-- Embedding of `_fix_time_colons` (`app/main.py` lines 91-98). -/
def fixTimeColons (s : String) : String :=
  ⟨fixScan none s.data⟩

/-! #### `_CMD_VERBS` (`app/main.py` lines 23-26)

`^(a[Ã±n]ade|agrega|crea|abre|a[Ã±n]adir|agregar|crear|abrir|pon|poner|mete|meter)\b`
with `IGNORECASE | UNICODE`, applied with `.match` (anchored at the start)
to the stripped summary.  The source file's character class really
contains the two mojibake characters `Ã` and `±` (bytes `C3 83 C2 B1`),
not `ñ`; the expansion below is byte-faithful to that.  `IGNORECASE` is
modelled by lowering the input, the alternatives being stored lowered. -/
def cmdVerbAlternatives : List String :=
  ["aãade", "a±ade", "anade", "agrega", "crea", "abre",
   "aãadir", "a±adir", "anadir", "agregar", "crear", "abrir",
   "pon", "poner", "mete", "meter"]

/-- Anchored match of one alternative followed by `\b`. -/
def altMatchesAt (alt : String) (cs : List Char) : Bool :=
  alt.data.isPrefixOf cs &&
    wordBoundary alt.data.getLast? ((cs.drop alt.data.length).head?)

/-- Boolean result of `_CMD_VERBS.match(s)`: some alternative matches at
the start of the lowered string and ends at a word boundary.  (Regex
alternation backtracks, so the anchored match succeeds if and only if
some alternative does.) -/
def cmdVerbMatch (s : String) : Bool :=
  cmdVerbAlternatives.any (fun alt => altMatchesAt alt (pyLower s).data)

/-! #### URL extraction (`app/main.py` lines 281-283)

`re.search(r'https?://\S+', note.content)` followed by
`.rstrip('.,)>')` on the match.
-/

/-- Attempt `https?://\S+` at the current position (greedy optional `s`,
then at least one non-whitespace character, maximal munch). -/
def urlMatchAt : List Char → Option (List Char)
  | 'h' :: 't' :: 't' :: 'p' :: rest =>
    (match rest with
     | 's' :: ':' :: '/' :: '/' :: c :: rest2 =>
       if isPyWs c then none
       else some ("https://".data ++ c :: rest2.takeWhile (fun x => !isPyWs x))
     | _ => none) <|>
    (match rest with
     | ':' :: '/' :: '/' :: c :: rest2 =>
       if isPyWs c then none
       else some ("http://".data ++ c :: rest2.takeWhile (fun x => !isPyWs x))
     | _ => none)
  | _ => none

/-- Leftmost search for `https?://\S+`. -/
def urlSearch : List Char → Option (List Char)
  | [] => none
  | c :: rest => urlMatchAt (c :: rest) <|> urlSearch rest

/-- Python `str.rstrip('.,)>')`. -/
def rstripUrl (cs : List Char) : List Char :=
  (cs.reverse.dropWhile (fun c => c = '.' || c = ',' || c = ')' || c = '>')).reverse

/-- The `source_url` regex fallback of `_process_single_ai`
(`app/main.py` lines 281-283): the leftmost URL-like substring of the
note, right-stripped of trailing punctuation. -/
def urlFallback (content : String) : Option String :=
  (urlSearch content.data).map (fun cs => ⟨rstripUrl cs⟩)

/-! ### Datetime model

`datetime` values are modelled as an absolute day number plus a
time-of-day.  `day` counts civil days from 0000-03-01 (the era used by
the standard `days_from_civil` algorithm), so `weekday` below agrees with
Python's `date.weekday()` (Monday = 0) on every calendar date.
Comparison is timeline order, exactly `datetime`'s comparison for the
in-range field values the engine constructs.
-/

structure PyDateTime where
  day : Nat
  hour : Nat
  minute : Nat
  second : Nat
  micro : Nat
deriving Repr, DecidableEq

/-- Python `datetime.weekday()`: Monday = 0.  The `+ 2` aligns the
0000-03-01 era with the weekday cycle (1970-01-01, era day 719468, was a
Thursday = 3). -/
def PyDateTime.weekday (t : PyDateTime) : Nat :=
  (t.day + 2) % 7

/-- Microseconds on the timeline; linearizes the timeline order for the
in-range field values `datetime` admits. -/
def PyDateTime.toMicros (t : PyDateTime) : Nat :=
  (((t.day * 24 + t.hour) * 60 + t.minute) * 60 + t.second) * 1000000 + t.micro

/-- Python `datetime` comparison `a <= b`. -/
def PyDateTime.le (a b : PyDateTime) : Bool :=
  a.toMicros ≤ b.toMicros

/-- Python `dt.replace(hour=h, minute=m, second=0, microsecond=0)`. -/
def PyDateTime.replaceTime (t : PyDateTime) (h m : Nat) : PyDateTime :=
  { t with hour := h, minute := m, second := 0, micro := 0 }

/-- Python `dt + timedelta(days=n)`. -/
def PyDateTime.addDays (t : PyDateTime) (n : Nat) : PyDateTime :=
  { t with day := t.day + n }

/-- Python `dt + timedelta(minutes=n)` (with carries into hour and day). -/
def PyDateTime.addMinutes (t : PyDateTime) (n : Nat) : PyDateTime :=
  let m := t.minute + n
  let h := t.hour + m / 60
  { t with day := t.day + h / 24, hour := h % 24, minute := m % 60 }

/-- Gregorian leap year. -/
def isLeapYear (y : Nat) : Bool :=
  y % 4 == 0 && (y % 100 != 0 || y % 400 == 0)

/-- Days in a Gregorian month. -/
def daysInMonth (y m : Nat) : Nat :=
  if m = 2 then (if isLeapYear y then 29 else 28)
  else if m = 4 || m = 6 || m = 9 || m = 11 then 30
  else 31

/-- Civil date to era day count (days since 0000-03-01), the standard
`days_from_civil` computation, valid for the years `fromisoformat`
accepts. -/
def daysFromCivil (y m d : Nat) : Nat :=
  let y' := if m ≤ 2 then y - 1 else y
  let era := y' / 400
  let yoe := y' % 400
  let mp := (m + 9) % 12
  let doy := (153 * mp + 2) / 5 + d - 1
  let doe := yoe * 365 + yoe / 4 - yoe / 100 + doy
  era * 146097 + doe

/-- Read an all-digit character list as a number. -/
def readDigits (cs : List Char) : Option Nat :=
  if cs.all Char.isDigit && cs ≠ [] then
    some (cs.foldl (fun n c => 10 * n + digitVal c) 0)
  else none

/-- Model of `datetime.fromisoformat`: `YYYY-MM-DD`, optionally followed
by `T` or a space and `HH:MM[:SS[.fff[fff]]]`, with range-checked
fields.  (The stdlib grammar varies with the Python version; every claim
below relies only on clearly malformed strings being rejected, which
holds in every version.) -/
def fromisoformat (s : String) : Option PyDateTime :=
  match s.data with
  | y1 :: y2 :: y3 :: y4 :: '-' :: m1 :: m2 :: '-' :: d1 :: d2 :: rest =>
    match readDigits [y1, y2, y3, y4], readDigits [m1, m2], readDigits [d1, d2] with
    | some y, some m, some d =>
      if 1 ≤ m && m ≤ 12 && 1 ≤ d && d ≤ daysInMonth y m && 1 ≤ y then
        let date := daysFromCivil y m d
        match rest with
        | [] => some ⟨date, 0, 0, 0, 0⟩
        | sep :: h1 :: h2 :: ':' :: n1 :: n2 :: rest2 =>
          if sep = 'T' || sep = ' ' then
            match readDigits [h1, h2], readDigits [n1, n2] with
            | some h, some n =>
              if h ≤ 23 && n ≤ 59 then
                match rest2 with
                | [] => some ⟨date, h, n, 0, 0⟩
                | ':' :: s1 :: s2 :: rest3 =>
                  match readDigits [s1, s2] with
                  | some sec =>
                    if sec ≤ 59 then
                      match rest3 with
                      | [] => some ⟨date, h, n, sec, 0⟩
                      | '.' :: fs =>
                        match readDigits fs with
                        | some f =>
                          if fs.length = 3 then some ⟨date, h, n, sec, f * 1000⟩
                          else if fs.length = 6 then some ⟨date, h, n, sec, f⟩
                          else none
                        | none => none
                      | _ => none
                    else none
                  | none => none
                | _ => none
              else none
            | _, _ => none
          else none
        | _ => none
      else none
    | _, _, _ => none
  | _ => none

/-! ### Temporal extractor (`_auto_fire_at`, `app/main.py` lines 39-69)

The ambient `datetime.now()` of the source becomes the explicit `now`
argument.
-/

/-- The `_WEEKDAYS_BACKEND` dict (`app/main.py` lines 34-37) in its
insertion order, which is the order the `for` loop scans. -/
def weekdaysBackend : List (String × Nat) :=
  [("lunes", 0), ("martes", 1), ("miercoles", 2), ("miércoles", 2),
   ("jueves", 3), ("viernes", 4), ("sabado", 5), ("sábado", 5), ("domingo", 6)]

/-- The first weekday name of `_WEEKDAYS_BACKEND` contained in the
lowered text, as the loop with `break` finds it. -/
def weekdayLookup (textL : String) : Option Nat :=
  (weekdaysBackend.find? (fun p => pyIn p.1 textL)).map (·.2)

/-- Day offset of the weekday branch: `diff = (wday - now.weekday()) % 7`
(Python `%`, hence non-negative), `diff if diff > 0 else 7`. -/
def weekdayDayOffset (wday today : Nat) : Nat :=
  let diff : Int := ((wday : Int) - (today : Int)) % 7
  if 0 < diff then diff.toNat else 7

/-- Embedding of `_auto_fire_at` (`app/main.py` lines 39-69).  Note the
source's branch order: the `'mañana'` test runs BEFORE the
`'pasado mañana'` test, and `'pasado mañana'` contains `'mañana'`. -/
def autoFireAt (noteText : String) (now : PyDateTime) : Option PyDateTime :=
  match timeSearch (pyLower noteText) with
  | none => none
  | some (hour, minuteOpt) =>
    let minute := minuteOpt.getD 0
    if hour ≤ 23 && minute ≤ 59 then
      let textL := pyLower noteText
      let dayOffset : Option Nat :=
        if pyIn "mañana" textL || pyIn "manana" textL then some 1
        else if pyIn "pasado mañana" textL || pyIn "pasado manana" textL then some 2
        else (weekdayLookup textL).map (fun w => weekdayDayOffset w now.weekday)
      let target := now.replaceTime hour minute
      match dayOffset with
      | some n => some (target.addDays n)
      | none => if target.le now then some (target.addDays 1) else some target
    else none

/-! ### Data model

`app/models.py` is not part of the sources; the row shapes and their
defaults are taken from the specification (§3).  Timestamp columns that
no modelled logic ever reads (`created_at`, `processed_at`,
`updated_at`) are omitted.
-/

/-- Modelled from the spec: `app/models.py` is not under `src/`.  An
Entry row (spec §3): identifier, content (unique across entries, enforced
by the store), origin, derived type, summary (empty string standing for
empty/NULL, as every read goes through `or ""`), the comma-delimited tag
path, status (`pending` on creation), optional source URL and export
destination. -/
structure InboxEntry where
  id : Nat
  content : String
  origin : String
  type : String
  summary : String
  tags : String
  status : String
  sourceUrl : Option String
  destination : Option String
deriving Repr, DecidableEq

/-- Modelled from the spec: a Reminder row (spec §3): identifier,
message, absolute `fire_at`, `sent` flag (false on creation), weak
optional reference to an Entry. -/
structure Reminder where
  id : Nat
  message : String
  fireAt : PyDateTime
  sent : Bool
  entryId : Option Nat
deriving Repr, DecidableEq

/-- Modelled from the spec: a GroupSummary row (spec §3): one row per
(group, subgroup) pair with the latest narrative summary. -/
structure GroupSummary where
  groupName : String
  subgroupName : Option String
  summary : String
deriving Repr, DecidableEq

/-- The persistent store: the three tables in insertion order (list order
models the iteration order of unordered queries) plus the
autoincrement counters. -/
structure Store where
  entries : List InboxEntry
  reminders : List Reminder
  summaries : List GroupSummary
  nextEntryId : Nat
  nextReminderId : Nat
deriving Repr, DecidableEq

/-- A classification result from the AI service, one element of the list
`classify_with_ai` returns.  Fields are `Option`s because the upstream
payload is a dict read with `.get`; `makes_sense` defaults to `True` and
`action` to `"add"` at the use sites, as in the source. -/
structure AIResult where
  makesSense : Option Bool
  action : Option String
  group : Option String
  subgroup : Option String
  idea : Option String
  remindAt : Option String
  url : Option String
deriving Repr, DecidableEq

/-- The request body of `POST /note` (`NoteIn`, `app/main.py` lines
212-215). -/
structure NoteIn where
  content : String
  origin : String
  lang : String
deriving Repr, DecidableEq

/-- One element of the response of `POST /note` (`NoteOut`,
`app/main.py` lines 217-225).  The source serializes `remind_at` as
`fire_at.isoformat()`; the datetime itself is kept here, the ISO encoding
being injective. -/
structure NoteOut where
  action : String
  entry : Option InboxEntry := none
  group : Option String := none
  subgroup : Option String := none
  idea : Option String := none
  aiSkipped : Bool := false
  deletedCount : Nat := 0
  remindAt : Option PyDateTime := none
deriving Repr, DecidableEq

/-- Python truthiness of an optional string (`None` and `""` are falsy). -/
def optTruthy : Option String → Bool
  | none => false
  | some s => s ≠ ""

/-- Python `str.split(",")` on the character list (`"".split(",")` is
`[""]`, as in Python). -/
def splitOnComma : List Char → List (List Char)
  | [] => [[]]
  | c :: rest =>
    match splitOnComma rest with
    | [] => [[c]]
    | h :: t => if c = ',' then [] :: h :: t else (c :: h) :: t

/-- The tag-path split used throughout the source:
`[t.strip() for t in (tags or "").split(",") if t.strip()]`. -/
def splitTags (tags : String) : List String :=
  ((splitOnComma tags.data).map (fun cs => pyStrip ⟨cs⟩)).filter (fun t => t ≠ "")

/-! ### `ai_bridge` store helpers -/

/-- Embedding of `ai_result_to_entry_fields` (`app/ai_bridge.py` lines
107-128); the unused `content` parameter of the source is kept.  Returns
(summary, tags, source_url). -/
def aiResultToEntryFields (ai : AIResult) (_content : String) : String × String × Option String :=
  let idea := ai.idea.getD ""
  let group := ai.group.getD ""
  let subgroup := ai.subgroup.getD ""
  let tags := if subgroup ≠ "" then group ++ "," ++ subgroup else group
  (idea, tags, if optTruthy ai.url then ai.url else none)

/-- First tag segment of a stored entry, normalized, as
`_entries_matching_delete` computes it. -/
def entryGroupOf (e : InboxEntry) : String :=
  pyNormalize (((splitTags e.tags).get? 0).getD "")

/-- Second tag segment of a stored entry, normalized (empty when the tag
path has a single segment). -/
def entrySubgroupOf (e : InboxEntry) : String :=
  pyNormalize (((splitTags e.tags).get? 1).getD "")

/-- The entry's idea for delete matching: its summary-or-content,
normalized. -/
def entryIdeaOf (e : InboxEntry) : String :=
  pyNormalize (if e.summary ≠ "" then e.summary else e.content)

/-- One field check of the delete resolver: an empty pattern field is a
wildcard, a non-empty one must be `_similar` to the stored field. -/
def deleteFieldOk (pat entryField : String) : Bool :=
  pat == "" || similar entryField pat

/-- The per-entry match of `_entries_matching_delete`: all three field
checks must pass. -/
def deleteMatchPred (ai : AIResult) (e : InboxEntry) : Bool :=
  deleteFieldOk (pyNormalize (ai.group.getD "")) (entryGroupOf e) &&
  deleteFieldOk (pyNormalize (ai.subgroup.getD "")) (entrySubgroupOf e) &&
  deleteFieldOk (pyNormalize (ai.idea.getD "")) (entryIdeaOf e)

/-- Embedding of `_entries_matching_delete` (`app/ai_bridge.py` lines
133-159): over the `processed` entries, each empty (falsy after
normalization) pattern field is a wildcard, a non-empty one must be
`_similar` to the entry's corresponding field. -/
def entriesMatchingDelete (ai : AIResult) (entries : List InboxEntry) : List InboxEntry :=
  (entries.filter (fun e => e.status == "processed")).filter (deleteMatchPred ai)

/-- Embedding of `find_entry_to_delete` (`app/ai_bridge.py` lines
162-165). -/
def findEntryToDelete (ai : AIResult) (entries : List InboxEntry) : Option InboxEntry :=
  (entriesMatchingDelete ai entries).head?

/-- Embedding of `delete_entries_matching` (`app/ai_bridge.py` lines
168-175): hard-delete every match in one commit and return the matches. -/
def deleteEntriesMatching (ai : AIResult) (st : Store) : List InboxEntry × Store :=
  let hits := entriesMatchingDelete ai st.entries
  (hits,
   { st with entries := st.entries.filter (fun e => !(hits.any (fun m => m.id == e.id))) })

/-! ### Auto-summarizer (`app/main.py` lines 107-137) -/

/-- Embedding of `_get_group_ideas` (`app/main.py` lines 107-117): the
summaries of the `processed` entries whose tag path is exactly
(group, subgroup), in store order. -/
def getGroupIdeas (group : String) (subgroup : Option String) (entries : List InboxEntry) : List String :=
  (entries.filter (fun e => e.status == "processed")).filterMap (fun e =>
    let parts := splitTags e.tags
    let g := (parts.get? 0).getD ""
    let sg := parts.get? 1
    if g == group && sg == subgroup && e.summary ≠ "" then some e.summary else none)

/-- Update the first list element satisfying the predicate (SQLAlchemy
`.first()` followed by a field assignment). -/
def updateFirst (p : α → Bool) (f : α → α) : List α → List α
  | [] => []
  | x :: xs => if p x then f x :: xs else x :: updateFirst p f xs

/-- Embedding of `_maybe_auto_summarize` (`app/main.py` lines 120-137).
`summarizeResp` is the text `request_summary` would return for this call
(`""` models the provider failing, `app/ai_bridge.py` lines 180-199).
The boolean records whether a summarization request was issued. -/
def maybeAutoSummarize (group : String) (subgroup : Option String) (summarizeResp : String)
    (st : Store) : Store × Bool :=
  let ideas := getGroupIdeas group subgroup st.entries
  if ideas.length ≤ 10 then (st, false)
  else
    let text := summarizeResp
    if text = "" then (st, true)
    else
      let isPair := fun (r : GroupSummary) => r.groupName == group && r.subgroupName == subgroup
      if st.summaries.any isPair then
        ({ st with summaries := updateFirst isPair (fun r => { r with summary := text }) st.summaries },
         true)
      else
        ({ st with summaries := st.summaries ++ [⟨group, subgroup, text⟩] }, true)

/-! ### Intent resolver and action handlers
(`_process_single_ai`, `app/main.py` lines 240-336)

The external collaborators become parameters: `exportOk` is whether
`export_to_markdown` succeeds for the one insert the handler may perform,
`summarizeResp` the text the summarization provider would return for the
one request the handler may issue, `now` the ambient `datetime.now()`.
-/

/-- Modelled from the spec: `app/classifier.py` is not under `src/`.
Spec §3 describes `type` as a derived content classification (e.g.
note/task/link) — a pure function of the content whose value no modelled
behavior ever inspects. -/
def classifyType (_content : String) : String :=
  "note"

/-- Modelled from the spec: `app/exporter.py` is not under `src/`.  Spec
§4.6 describes export as yielding a destination location; the value is
never inspected by the modelled logic, success or failure being the
`exportOk` parameter. -/
def exportDest (_e : InboxEntry) : String :=
  "markdown"

/-- The summary the Add pipeline computes (`app/main.py` lines 276,
285-288): the AI idea through `_fix_time_colons`, blanked when fuzzily
identical to the raw note content, blanked when it starts with a command
verb. -/
def computedSummary (ai : AIResult) (content : String) : String :=
  let s := fixTimeColons (aiResultToEntryFields ai content).1
  let s := if s ≠ "" && pyNormalize s == pyNormalize content then "" else s
  if s ≠ "" && cmdVerbMatch (pyStrip s) then "" else s

/-- The dedup-guard query of the Add pipeline (`app/main.py` lines
294-300): among `processed` entries with exactly the computed tag path,
the first whose summary is `_similar` to the computed summary. -/
def dedupLookup (ai : AIResult) (content : String) (entries : List InboxEntry) : Option InboxEntry :=
  let tags := (aiResultToEntryFields ai content).2.1
  let summary := computedSummary ai content
  (entries.filter (fun e => e.status == "processed" && e.tags == tags)).find?
    (fun dup => similar dup.summary summary)

/-- The `NoteOut` all three `add` return sites build: action `add`, the
entry, the AI's group/subgroup, `idea = summary or None`. -/
def addOutcome (ai : AIResult) (summary : String) (e : InboxEntry) : NoteOut :=
  { action := "add", entry := some e, group := ai.group, subgroup := ai.subgroup,
    idea := if summary ≠ "" then some summary else none }

/-- The entry row the Add pipeline inserts and, when export succeeds,
marks `processed` (`app/main.py` lines 304-327): content is the computed
summary, falling back to the raw note; the source URL is the AI's, or
the first URL-like substring of the note. -/
def insertedEntry (ai : AIResult) (note : NoteIn) (newId : Nat) (exportOk : Bool) : InboxEntry :=
  let fields := aiResultToEntryFields ai note.content
  let summary := computedSummary ai note.content
  let sourceUrl := match fields.2.2 with
    | some u => some u
    | none => urlFallback note.content
  let newEntry : InboxEntry :=
    { id := newId, content := if summary ≠ "" then summary else note.content,
      origin := note.origin, type := classifyType note.content, summary := summary,
      tags := fields.2.1, status := "pending", sourceUrl := sourceUrl,
      destination := none }
  if exportOk then
    { newEntry with destination := some (exportDest newEntry), status := "processed" }
  else newEntry

/-- The Add pipeline (`app/main.py` lines 275-336).  The
`IntegrityError` branch is modelled by the content-uniqueness invariant
of the store (spec §3): the commit raises exactly when some row already
holds `content_to_store`, and the recovery re-query then returns that
row. -/
def processAddAction (ai : AIResult) (note : NoteIn) (st : Store) (exportOk : Bool)
    (summarizeResp : String) : NoteOut × Store :=
  let summary := computedSummary ai note.content
  let contentToStore := if summary ≠ "" then summary else note.content
  match dedupLookup ai note.content st.entries with
  | some dup => (addOutcome ai summary dup, st)
  | none =>
    match st.entries.find? (fun e => e.content == contentToStore) with
    | some existing => (addOutcome ai summary existing, st)
    | none =>
      let finalEntry := insertedEntry ai note st.nextEntryId exportOk
      let st1 := { st with entries := st.entries ++ [finalEntry],
                           nextEntryId := st.nextEntryId + 1 }
      let st2 :=
        if optTruthy ai.group then
          (maybeAutoSummarize (ai.group.getD "") ai.subgroup summarizeResp st1).1
        else st1
      (addOutcome ai summary finalEntry, st2)

/-- The `remind` handler (`app/main.py` lines 258-273): parse
`remind_at`, defaulting to now + 5 minutes when it is absent, empty or
unparseable; the message is the idea, falling back to the raw note
content. -/
def processRemindAction (ai : AIResult) (note : NoteIn) (st : Store) (now : PyDateTime) :
    NoteOut × Store :=
  let fireAt := match ai.remindAt with
    | none => now.addMinutes 5
    | some s => if s = "" then now.addMinutes 5 else (fromisoformat s).getD (now.addMinutes 5)
  let message := if optTruthy ai.idea then ai.idea.getD "" else note.content
  let reminder : Reminder :=
    { id := st.nextReminderId, message := message, fireAt := fireAt,
      sent := false, entryId := none }
  ({ action := "remind", group := some "recordatorios", idea := some message,
     remindAt := some fireAt },
   { st with reminders := st.reminders ++ [reminder],
             nextReminderId := st.nextReminderId + 1 })

/-- The `delete` handler (`app/main.py` lines 247-256). -/
def processDeleteAction (ai : AIResult) (st : Store) : NoteOut × Store :=
  let res := deleteEntriesMatching ai st
  ({ action := "delete", entry := res.1.head?, group := ai.group,
     subgroup := ai.subgroup, idea := ai.idea, deletedCount := res.1.length },
   res.2)

/-- Embedding of `_process_single_ai` (`app/main.py` lines 240-336):
dispatch on `makes_sense` and `action` (default `add`). -/
def processSingleAI (ai : AIResult) (note : NoteIn) (st : Store) (now : PyDateTime)
    (exportOk : Bool) (summarizeResp : String) : NoteOut × Store :=
  if !(ai.makesSense.getD true) then ({ action := "ignored", aiSkipped := false }, st)
  else
    let action := ai.action.getD "add"
    if action == "delete" then processDeleteAction ai st
    else if action == "remind" then processRemindAction ai note st now
    else processAddAction ai note st exportOk summarizeResp

/-- The fan-out of `add_note` (`app/main.py` line 389): process each
classification result in order, threading the store. -/
def processAIList (ais : List AIResult) (note : NoteIn) (st : Store) (now : PyDateTime)
    (exportOk : Bool) (summarizeResp : String) : List NoteOut × Store :=
  match ais with
  | [] => ([], st)
  | a :: rest =>
    let r := processSingleAI a note st now exportOk summarizeResp
    let rs := processAIList rest note r.2 now exportOk summarizeResp
    (r.1 :: rs.1, rs.2)

/-- Embedding of `_maybe_auto_reminder` (`app/main.py` lines 72-85). -/
def maybeAutoReminder (noteContent : String) (addResults : List NoteOut) (st : Store)
    (now : PyDateTime) : Option (NoteOut × Store) :=
  match autoFireAt noteContent now with
  | none => none
  | some fireAt =>
    let linked := addResults.find?
      (fun r => r.action == "add" && optTruthy r.idea && r.entry.isSome)
    let message := match linked with
      | some l => l.idea
      | none => ((addResults.find? (fun r => r.action == "add" && optTruthy r.idea)).map
          (fun r => r.idea)).getD none
    let entryId := match linked with
      | some l => l.entry.map (fun e => e.id)
      | none => none
    if !optTruthy message then none
    else
      let msg := message.getD ""
      some ({ action := "remind", group := some "recordatorios", idea := some msg,
              remindAt := some fireAt },
            { st with
                reminders := st.reminders ++
                  [{ id := st.nextReminderId, message := msg, fireAt := fireAt,
                     sent := false, entryId := entryId }],
                nextReminderId := st.nextReminderId + 1 })

/-- Embedding of `add_note` (`POST /note`, `app/main.py` lines 373-400).
`aiList` is what `classify_with_ai` returns (`none` models the provider
being unreachable, `app/ai_bridge.py` lines 76-102).  In the
provider-unavailable branch the source commits a raw entry with NO
`IntegrityError` handling, so a content-uniqueness conflict there
surfaces as an error — hence the `Except`. -/
def addNote (note : NoteIn) (st : Store) (aiList : Option (List AIResult))
    (now : PyDateTime) (exportOk : Bool) (summarizeResp : String) :
    Except Unit (List NoteOut × Store) :=
  match aiList with
  | none =>
    match st.entries.find? (fun e => e.content == note.content) with
    | some _ => Except.error ()
    | none =>
      let e : InboxEntry :=
        { id := st.nextEntryId, content := note.content, origin := note.origin,
          type := classifyType note.content, summary := "", tags := "",
          status := "pending", sourceUrl := none, destination := none }
      Except.ok ([{ action := "add", entry := some e, aiSkipped := true }],
        { st with entries := st.entries ++ [e], nextEntryId := st.nextEntryId + 1 })
  | some ais =>
    let res := processAIList ais note st now exportOk summarizeResp
    let results := res.1
    let hasAdd := results.any (fun r => r.action == "add")
    let hasRemind := results.any (fun r => r.action == "remind")
    if hasAdd && !hasRemind then
      match maybeAutoReminder note.content results res.2 now with
      | some auto => Except.ok (results ++ [auto.1], auto.2)
      | none => Except.ok (results, res.2)
    else Except.ok (results, res.2)

/-! ### Reminder scheduler (`_check_reminders`, `app/main.py` lines
163-184)

One poll: query the due unsent reminders, attempt delivery for each
(best-effort — the SMTP helper swallows its own failures, `app/main.py`
lines 148-160), mark each `sent`, delete each linked entry that still
resolves, commit.  `deliverOk` is the delivery outcome per reminder id;
the returned log lists the attempted deliveries with their outcomes.
-/

/-- Whether a reminder is due at `now` (`sent == False ∧ fire_at <= now`). -/
def reminderDue (now : PyDateTime) (r : Reminder) : Bool :=
  r.sent == false && r.fireAt.le now

/-- Embedding of `_check_reminders`. -/
def checkReminders (now : PyDateTime) (deliverOk : Nat → Bool) (st : Store) :
    Store × List (Nat × Bool) :=
  let due := st.reminders.filter (reminderDue now)
  let log := due.map (fun r => (r.id, deliverOk r.id))
  let dueEntryIds := due.filterMap (fun r => r.entryId)
  ({ st with
      reminders := st.reminders.map (fun r =>
        if reminderDue now r then { r with sent := true } else r),
      entries := st.entries.filter (fun e => !(dueEntryIds.contains e.id)) },
   log)

/-- A sequence of scheduler polls (`BackgroundScheduler` ticks), each with
its own clock reading and delivery outcomes, with the concatenated
delivery log. -/
def runPolls : List (PyDateTime × (Nat → Bool)) → Store → Store × List (Nat × Bool)
  | [], st => (st, [])
  | (now, f) :: ps, st =>
    let r := checkReminders now f st
    let rest := runPolls ps r.1
    (rest.1, r.2 ++ rest.2)

/-! ### Concrete values used by counterexamples and witnesses -/

/-- 2024-01-01 08:00:00, a Monday (era day 739191). -/
def nowMonday : PyDateTime :=
  ⟨739191, 8, 0, 0, 0⟩

/-- 2024-01-05 10:00:00, a Friday after 09:30. -/
def nowFriday : PyDateTime :=
  ⟨739195, 10, 0, 0, 0⟩

/-- A processed entry used to populate test stores (content kept unique
by reusing the summary). -/
def sampleEntry (i : Nat) (tags summary : String) : InboxEntry :=
  ⟨i, "nota sobre " ++ summary, "manual", "note", summary, tags, "processed", none, none⟩

/-- A store holding eleven processed ideas under group `g` (no
subgroup). -/
def elevenStore : Store :=
  ⟨[sampleEntry 1 "g" "idea uno", sampleEntry 2 "g" "idea dos",
    sampleEntry 3 "g" "idea tres", sampleEntry 4 "g" "idea cuatro",
    sampleEntry 5 "g" "idea cinco", sampleEntry 6 "g" "idea seis",
    sampleEntry 7 "g" "idea siete", sampleEntry 8 "g" "idea ocho",
    sampleEntry 9 "g" "idea nueve", sampleEntry 10 "g" "idea diez",
    sampleEntry 11 "g" "idea once"],
   [], [], 12, 1⟩

/-- A store holding one entry whose content collides with a resubmitted
note. -/
def conflictStore : Store :=
  ⟨[⟨5, "nota repetida", "manual", "note", "", "", "pending", none, none⟩], [], [], 6, 1⟩

/-- A delete intent with only the idea field set. -/
def aiIdeaOnly : AIResult :=
  ⟨none, some "delete", none, none, some "comprar pan", none, none⟩

/-- A processed entry under `compras` whose idea is close to the
pattern above. -/
def entPan : InboxEntry :=
  sampleEntry 1 "compras" "comprar pan integral"

/-- A delete intent with every field empty. -/
def aiWipe : AIResult :=
  ⟨none, some "delete", none, none, none, none, none⟩

/-- A store with two processed entries and one pending entry. -/
def stWipe : Store :=
  ⟨[sampleEntry 1 "compras" "pan", sampleEntry 2 "casa" "limpiar el patio",
    ⟨3, "borrador", "manual", "note", "", "", "pending", none, none⟩],
   [], [], 4, 1⟩

/-- An add-classification of a shopping note. -/
def aiShopping : AIResult :=
  ⟨none, none, some "compras", none, some "comprar pan integral", none, none⟩

/-- The note that produced `aiShopping`. -/
def noteShopping : NoteIn :=
  ⟨"apunta que tengo que comprar pan integral", "manual", "es"⟩

/-- The empty store. -/
def emptyStore : Store :=
  ⟨[], [], [], 1, 1⟩

/-- A remind-classification whose timestamp does not parse. -/
def aiBadRemind : AIResult :=
  ⟨none, some "remind", none, none, some "", some "mañana por la tarde", none⟩

/-- A due, unsent reminder linked to entry 2. -/
def reminderDueW : Reminder :=
  ⟨1, "llamar al dentista", ⟨739191, 7, 0, 0, 0⟩, false, some 2⟩

/-- A scheduler store holding `reminderDueW` and its linked entry. -/
def stSched : Store :=
  ⟨[sampleEntry 2 "salud" "cita dentista"], [reminderDueW], [], 3, 2⟩

/-! ### Helper lemmas -/

/-- `_similar` is reflexive: normalized equality always holds. -/
theorem similar_refl (s : String) : similar s s = true := by
  simp [similar]

/-- Characterization of Python substring containment: `containsSub hay
needle` holds exactly when `hay = s ++ needle ++ t` for some `s`, `t`. -/
theorem containsSub_iff (hay needle : List Char) :
    containsSub hay needle = true ↔ ∃ s t, hay = s ++ needle ++ t := by
  induction hay with
  | nil =>
    rw [containsSub]
    simp only [Bool.or_false]
    constructor
    · intro h
      have := List.isPrefixOf_iff_prefix.mp h
      rcases this with ⟨t, ht⟩
      exact ⟨[], t, by simp [← ht]⟩
    · rintro ⟨s, t, hst⟩
      have hs : s = [] := by
        cases s with
        | nil => rfl
        | cons a as => simp at hst
      subst hs
      have hn : needle = [] := by
        cases needle with
        | nil => rfl
        | cons a as => simp at hst
      subst hn
      simp [List.isPrefixOf]
  | cons c cs ih =>
    rw [containsSub]
    simp only [Bool.or_eq_true]
    constructor
    · rintro (h | h)
      · rcases List.isPrefixOf_iff_prefix.mp h with ⟨t, ht⟩
        exact ⟨[], t, by simp [← ht]⟩
      · rcases ih.mp h with ⟨s, t, hst⟩
        exact ⟨c :: s, t, by simp [hst]⟩
    · rintro ⟨s, t, hst⟩
      cases s with
      | nil =>
        left
        exact List.isPrefixOf_iff_prefix.mpr ⟨t, by simpa using hst.symm⟩
      | cons a as =>
        right
        refine ih.mpr ⟨as, t, ?_⟩
        rw [List.append_assoc]
        exact (by simpa using hst : c = a ∧ cs = as ++ (needle ++ t)).2

/-- If a string contains `"pasado mañana"` it contains `"mañana"`. -/
theorem pyIn_manana_of_pasado (t : String) (h : pyIn "pasado mañana" t = true) :
    pyIn "mañana" t = true := by
  rcases (containsSub_iff t.data ("pasado mañana").data).mp h with ⟨s, u, hsu⟩
  refine (containsSub_iff t.data ("mañana").data).mpr ⟨s ++ ("pasado ").data, u, ?_⟩
  have hsplit : ("pasado mañana").data = ("pasado ").data ++ ("mañana").data := rfl
  rw [hsu, hsplit]
  simp

/-- If a string contains `"pasado manana"` it contains `"manana"`. -/
theorem pyIn_manana_of_pasado2 (t : String) (h : pyIn "pasado manana" t = true) :
    pyIn "manana" t = true := by
  rcases (containsSub_iff t.data ("pasado manana").data).mp h with ⟨s, u, hsu⟩
  refine (containsSub_iff t.data ("manana").data).mpr ⟨s ++ ("pasado ").data, u, ?_⟩
  have hsplit : ("pasado manana").data = ("pasado ").data ++ ("manana").data := rfl
  rw [hsu, hsplit]
  simp

/-! ### C2 — fuzzy matcher symmetry and reflexivity -/

/-- C2 counterexample: `_similar` is NOT symmetric.  The code gates the
substring test on the length of its FIRST argument, not on the shorter
string, so `similar "abcd" "ab"` holds while `similar "ab" "abcd"` does
not. -/
theorem similar_not_symmetric_counterexample :
    similar "abcd" "ab" = true ∧ similar "ab" "abcd" = false := by
  exact ⟨rfl, rfl⟩

/-- C2, amended: `similar(a, a)` always holds, and
`similar(a, b) = similar(b, a)` whenever both normalized strings have
length greater than 3 (the substring test is gated on the first
argument's normalized length, so symmetry can fail only when exactly one
side normalizes to at most 3 characters). -/
theorem similar_reflexive_and_symmetric_when_long (a b : String) :
    similar a a = true ∧
    (3 < (pyNormalize a).length → 3 < (pyNormalize b).length →
      similar a b = similar b a) := by
  refine ⟨similar_refl a, fun ha hb => ?_⟩
  simp only [similar]
  rw [decide_eq_true ha, decide_eq_true hb]
  have hbeq : (pyNormalize a == pyNormalize b) = (pyNormalize b == pyNormalize a) := by
    by_cases h : pyNormalize a = pyNormalize b
    · rw [h]
    · rw [beq_eq_false_iff_ne.mpr h, beq_eq_false_iff_ne.mpr (Ne.symm h)]
  rw [hbeq, Bool.or_comm (pyIn (pyNormalize b) (pyNormalize a))]

/-- C2 witness: both sides long after normalization, symmetry holds. -/
theorem similar_reflexive_and_symmetric_when_long_witness :
    similar "hola mundo" "hola mundo" = true ∧
    (3 < (pyNormalize "hola mundo").length → 3 < (pyNormalize "mundo").length →
      similar "hola mundo" "mundo" = similar "mundo" "hola mundo") :=
  similar_reflexive_and_symmetric_when_long "hola mundo" "mundo"

/-! ### C3 — `pasado mañana` priority -/

/-- C3: the source tests `'mañana'` BEFORE `'pasado mañana'`
(`app/main.py` lines 53-56), and `'pasado mañana'` contains `'mañana'`,
so the `+2 days` branch is unreachable: a note saying `pasado mañana`
with a valid time resolves to now + 1 day, not now + 2 days as the
specification states.  (A note saying plain `mañana` also resolves to
now + 1 day, which is the behavior both the code and the spec agree
on.) -/
theorem autoFireAt_pasado_manana_resolves_plus_one_day :
    pyIn "pasado mañana" (pyLower "quedamos pasado mañana a las 10") = true ∧
    autoFireAt "quedamos pasado mañana a las 10" nowMonday =
      some ⟨nowMonday.day + 1, 10, 0, 0, 0⟩ ∧
    autoFireAt "iremos mañana a las 10" nowMonday =
      some ⟨nowMonday.day + 1, 10, 0, 0, 0⟩ := by
  exact ⟨rfl, rfl, rfl⟩

/-! ### C5 — delete resolver field-wise matching -/

/-- C5: membership in `_entries_matching_delete` is characterized
field-wise over the `processed` entries: an empty pattern field is a
wildcard, a non-empty one requires `_similar` on the entry's
corresponding field, and the three checks are conjoined.  Consequently a
pattern with only the idea set matches any-tag-path entries with a
similar idea, and with all three fields set an entry must satisfy all
three. -/
theorem delete_resolver_fieldwise (ai : AIResult) (entries : List InboxEntry) (e : InboxEntry) :
    (e ∈ entriesMatchingDelete ai entries ↔
      e ∈ entries ∧ e.status = "processed" ∧
      (pyNormalize (ai.group.getD "") = "" ∨
        similar (entryGroupOf e) (pyNormalize (ai.group.getD "")) = true) ∧
      (pyNormalize (ai.subgroup.getD "") = "" ∨
        similar (entrySubgroupOf e) (pyNormalize (ai.subgroup.getD "")) = true) ∧
      (pyNormalize (ai.idea.getD "") = "" ∨
        similar (entryIdeaOf e) (pyNormalize (ai.idea.getD "")) = true)) ∧
    (pyNormalize (ai.group.getD "") = "" → pyNormalize (ai.subgroup.getD "") = "" →
      (e ∈ entriesMatchingDelete ai entries ↔
        e ∈ entries ∧ e.status = "processed" ∧
        (pyNormalize (ai.idea.getD "") = "" ∨
          similar (entryIdeaOf e) (pyNormalize (ai.idea.getD "")) = true))) ∧
    (pyNormalize (ai.group.getD "") ≠ "" → pyNormalize (ai.subgroup.getD "") ≠ "" →
      pyNormalize (ai.idea.getD "") ≠ "" → e ∈ entriesMatchingDelete ai entries →
      similar (entryGroupOf e) (pyNormalize (ai.group.getD "")) = true ∧
      similar (entrySubgroupOf e) (pyNormalize (ai.subgroup.getD "")) = true ∧
      similar (entryIdeaOf e) (pyNormalize (ai.idea.getD "")) = true) := by
  have hmain : e ∈ entriesMatchingDelete ai entries ↔
      e ∈ entries ∧ e.status = "processed" ∧
      (pyNormalize (ai.group.getD "") = "" ∨
        similar (entryGroupOf e) (pyNormalize (ai.group.getD "")) = true) ∧
      (pyNormalize (ai.subgroup.getD "") = "" ∨
        similar (entrySubgroupOf e) (pyNormalize (ai.subgroup.getD "")) = true) ∧
      (pyNormalize (ai.idea.getD "") = "" ∨
        similar (entryIdeaOf e) (pyNormalize (ai.idea.getD "")) = true) := by
    simp only [entriesMatchingDelete, List.mem_filter, deleteMatchPred, deleteFieldOk,
      Bool.and_eq_true, Bool.or_eq_true, beq_iff_eq]
    constructor
    · rintro ⟨⟨h1, h2⟩, ⟨h3, h4⟩, h5⟩
      exact ⟨h1, h2, h3, h4, h5⟩
    · rintro ⟨h1, h2, h3, h4, h5⟩
      exact ⟨⟨h1, h2⟩, ⟨h3, h4⟩, h5⟩
  refine ⟨hmain, ?_, ?_⟩
  · intro hg hs
    rw [hmain, hg, hs]
    simp
  · intro hg hs hi hmem
    have h := hmain.mp hmem
    exact ⟨(h.2.2.1).resolve_left hg, (h.2.2.2.1).resolve_left hs,
      (h.2.2.2.2).resolve_left hi⟩

/-- C5 witness: the idea-only pattern `comprar pan` matches the
processed entry `comprar pan integral` regardless of its tag path. -/
theorem delete_resolver_fieldwise_witness :
    entPan ∈ entriesMatchingDelete aiIdeaOnly [entPan] ∧
    pyNormalize (aiIdeaOnly.group.getD "") = "" ∧
    pyNormalize (aiIdeaOnly.subgroup.getD "") = "" := by
  have h := (delete_resolver_fieldwise aiIdeaOnly [entPan] entPan).2.1 rfl rfl
  refine ⟨h.mpr ⟨List.mem_cons_self _ _, rfl, Or.inr (by decide)⟩, rfl, rfl⟩

/-! ### C1 — dedup guard and Add idempotence -/

/-- The auto-summarizer never touches the entries table. -/
theorem maybeAutoSummarize_entries (g : String) (sg : Option String) (resp : String) (s : Store) :
    (maybeAutoSummarize g sg resp s).1.entries = s.entries := by
  simp only [maybeAutoSummarize]
  split_ifs <;> rfl

/-- C1: (i) when the dedup guard finds a `processed` entry under the
exact computed tag path whose summary is `_similar` to the computed
summary, the Add pipeline inserts nothing and returns that entry as the
outcome; (ii) hence processing the same classification result twice,
starting from a store where the guard and the uniqueness re-query both
miss and with a successful export, inserts exactly one entry, and the
second submission returns the first entry's identity with the store
unchanged. -/
theorem add_dedup_idempotent (ai : AIResult) (note : NoteIn) (st : Store) (now : PyDateTime)
    (eo : Bool) (resp : String)
    (hSense : ai.makesSense.getD true = true)
    (hDel : ai.action.getD "add" ≠ "delete")
    (hRem : ai.action.getD "add" ≠ "remind") :
    (∀ dup, dedupLookup ai note.content st.entries = some dup →
      processSingleAI ai note st now eo resp =
        (addOutcome ai (computedSummary ai note.content) dup, st)) ∧
    (dedupLookup ai note.content st.entries = none →
      st.entries.find? (fun e => e.content ==
        (if computedSummary ai note.content ≠ "" then computedSummary ai note.content
         else note.content)) = none →
      eo = true →
      (processSingleAI ai note st now eo resp).2.entries =
        st.entries ++ [insertedEntry ai note st.nextEntryId true] ∧
      ∀ now₂ eo₂ resp₂,
        processSingleAI ai note (processSingleAI ai note st now eo resp).2 now₂ eo₂ resp₂ =
          ((processSingleAI ai note st now eo resp).1,
           (processSingleAI ai note st now eo resp).2)) := by
  have hdisp : ∀ (s : Store) (n : PyDateTime) (e : Bool) (rp : String),
      processSingleAI ai note s n e rp = processAddAction ai note s e rp := by
    intro s n e rp
    unfold processSingleAI
    rw [hSense]
    simp only [Bool.not_true, Bool.false_eq_true, if_false]
    rw [beq_eq_false_iff_ne.mpr hDel, beq_eq_false_iff_ne.mpr hRem]
    simp
  have hA : ∀ (s : Store) (e₂ : Bool) (rp₂ : String) (dup : InboxEntry),
      dedupLookup ai note.content s.entries = some dup →
      processAddAction ai note s e₂ rp₂ =
        (addOutcome ai (computedSummary ai note.content) dup, s) := by
    intro s e₂ rp₂ dup hdup
    simp only [processAddAction]
    rw [hdup]
  constructor
  · intro dup hdup
    rw [hdisp]
    exact hA st eo resp dup hdup
  · intro hnone hfind heo
    subst heo
    have hfirst : processAddAction ai note st true resp =
        (addOutcome ai (computedSummary ai note.content)
           (insertedEntry ai note st.nextEntryId true),
         (if optTruthy ai.group then
            (maybeAutoSummarize (ai.group.getD "") ai.subgroup resp
              { st with entries := st.entries ++ [insertedEntry ai note st.nextEntryId true],
                        nextEntryId := st.nextEntryId + 1 }).1
          else
            { st with entries := st.entries ++ [insertedEntry ai note st.nextEntryId true],
                      nextEntryId := st.nextEntryId + 1 })) := by
      simp only [processAddAction]
      rw [hnone, hfind]
    have hentries : (processAddAction ai note st true resp).2.entries =
        st.entries ++ [insertedEntry ai note st.nextEntryId true] := by
      rw [hfirst]
      by_cases hg : optTruthy ai.group = true
      · rw [if_pos hg]
        rw [maybeAutoSummarize_entries]
      · rw [if_neg hg]
    have hpredE : ((insertedEntry ai note st.nextEntryId true).status == "processed" &&
        (insertedEntry ai note st.nextEntryId true).tags ==
          (aiResultToEntryFields ai note.content).2.1) = true := by
      simp [insertedEntry]
    have hsumE : (insertedEntry ai note st.nextEntryId true).summary =
        computedSummary ai note.content := by
      simp [insertedEntry]
    have hsim : similar (insertedEntry ai note st.nextEntryId true).summary
        (computedSummary ai note.content) = true := by
      rw [hsumE]
      exact similar_refl _
    have hdedup2 : dedupLookup ai note.content
        (st.entries ++ [insertedEntry ai note st.nextEntryId true]) =
        some (insertedEntry ai note st.nextEntryId true) := by
      simp only [dedupLookup] at hnone ⊢
      rw [List.filter_append, List.find?_append, hnone, Option.none_or]
      simp [List.filter_singleton, List.find?_singleton, hpredE, hsim]
    have hXentries : (processSingleAI ai note st now true resp).2.entries =
        st.entries ++ [insertedEntry ai note st.nextEntryId true] := by
      rw [hdisp]
      exact hentries
    refine ⟨hXentries, ?_⟩
    intro now₂ eo₂ resp₂
    rw [hdisp _ now₂ eo₂ resp₂]
    rw [hA _ eo₂ resp₂ _ (by rw [hXentries]; exact hdedup2)]
    have hfst : (processSingleAI ai note st now true resp).1 =
        addOutcome ai (computedSummary ai note.content)
          (insertedEntry ai note st.nextEntryId true) := by
      rw [hdisp, hfirst]
    rw [hfst]

/-- C1 witness: submitting the shopping note twice against an initially
empty store returns the first entry's identity the second time and
leaves the store unchanged. -/
theorem add_dedup_idempotent_witness :
    processSingleAI aiShopping noteShopping
        ((processSingleAI aiShopping noteShopping emptyStore nowMonday true "").2)
        nowMonday true "" =
      ((processSingleAI aiShopping noteShopping emptyStore nowMonday true "").1,
       (processSingleAI aiShopping noteShopping emptyStore nowMonday true "").2) :=
  ((add_dedup_idempotent aiShopping noteShopping emptyStore nowMonday true ""
    rfl (by decide) (by decide)).2 rfl rfl rfl).2 nowMonday true ""

/-! ### C6 — provider-unavailable degradation -/

/-- C6: when the classifier is unavailable, `add_note` creates a raw
unclassified entry and returns one `ai_skipped` Add outcome — but this
branch (unlike every sibling commit in the file) has no
`IntegrityError` handling, so when the note's content collides with an
already-stored entry the uniqueness conflict escapes to the caller
instead of being recovered: the first conjunct evaluates the model at
the failing input, the second shows the intact degradation path on a
fresh content. -/
theorem addNote_unavailable_conflict_raises :
    addNote ⟨"nota repetida", "manual", "es"⟩ conflictStore none nowMonday true "" =
      Except.error () ∧
    addNote ⟨"una nota nueva", "manual", "es"⟩ conflictStore none nowMonday true "" =
      Except.ok
        ([{ action := "add",
            entry := some ⟨6, "una nota nueva", "manual", "note", "", "", "pending", none, none⟩,
            aiSkipped := true }],
         { conflictStore with
             entries := conflictStore.entries ++
               [⟨6, "una nota nueva", "manual", "note", "", "", "pending", none, none⟩],
             nextEntryId := 7 }) := by
  exact ⟨rfl, rfl⟩

/-! ### C10 (all-wildcard delete) -/

/-- C10: a delete classification whose group, subgroup and idea are all
empty (or absent) makes every field a wildcard, so
`delete_entries_matching` removes exactly the `processed` entries — the
entire processed store — in one commit and returns them all. -/
theorem delete_all_wildcard (ai : AIResult) (st : Store)
    (hNodup : (st.entries.map (fun e => e.id)).Nodup)
    (hg : ai.group.getD "" = "") (hs : ai.subgroup.getD "" = "")
    (hi : ai.idea.getD "" = "") :
    deleteEntriesMatching ai st =
      (st.entries.filter (fun e => e.status == "processed"),
       { st with entries := st.entries.filter (fun e => !(e.status == "processed")) }) := by
  have hpred : ∀ e, deleteMatchPred ai e = true := by
    intro e
    have hn : pyNormalize "" = "" := rfl
    simp [deleteMatchPred, deleteFieldOk, hg, hs, hi, hn]
  have hmatch : entriesMatchingDelete ai st.entries =
      st.entries.filter (fun e => e.status == "processed") := by
    unfold entriesMatchingDelete
    rw [List.filter_congr (fun x _ => hpred x), List.filter_true]
  have hany : ∀ e ∈ st.entries,
      ((st.entries.filter (fun x => x.status == "processed")).any (fun m => m.id == e.id))
        = (e.status == "processed") := by
    intro e he
    by_cases hp : e.status = "processed"
    · have hmem : e ∈ st.entries.filter (fun x => x.status == "processed") :=
        List.mem_filter.mpr ⟨he, by simp [hp]⟩
      rw [List.any_eq_true.mpr ⟨e, hmem, by simp⟩,
        (by simp [hp] : (e.status == "processed") = true)]
    · have hnone : ((st.entries.filter (fun x => x.status == "processed")).any
          (fun m => m.id == e.id)) = false := by
        rw [List.any_eq_false]
        intro m hm hbeq
        have hmf := List.mem_filter.mp hm
        have hid : m.id = e.id := by simpa using hbeq
        have : m = e := List.inj_on_of_nodup_map hNodup hmf.1 he hid
        subst this
        exact hp (by simpa using hmf.2)
      rw [hnone, (by simp [hp] : (e.status == "processed") = false)]
  unfold deleteEntriesMatching
  rw [hmatch]
  refine Prod.ext rfl ?_
  simp only
  congr 1
  exact List.filter_congr (fun e he => by rw [hany e he])

/-- C10 witness: the all-empty pattern deletes both processed entries of
`stWipe` and leaves the pending one. -/
theorem delete_all_wildcard_witness :
    deleteEntriesMatching aiWipe stWipe =
      (stWipe.entries.filter (fun e => e.status == "processed"),
       { stWipe with entries := stWipe.entries.filter (fun e => !(e.status == "processed")) }) :=
  delete_all_wildcard aiWipe stWipe (by decide) rfl rfl rfl

/-! ### C8 (auto-summarizer threshold) -/

/-- C8 counterexample: with eleven processed ideas under `g` the count
exceeds 10 and a summarization request IS issued, yet when the provider
returns an empty text no GroupSummary row is upserted and the store is
unchanged — so "requests and upserts iff count > 10" fails in the
upsert direction. -/
theorem auto_summarize_requests_without_upsert :
    10 < (getGroupIdeas "g" none elevenStore.entries).length ∧
    maybeAutoSummarize "g" none "" elevenStore = (elevenStore, true) := by
  exact ⟨by decide, rfl⟩

/-- C8, amended: the auto-summarizer issues a summarization request iff
the count of processed summaries under the exact (group, subgroup) pair
is strictly greater than 10 (re-evaluated on every add, so the 11th,
12th, ... each trigger one request); at 10 or fewer it does nothing; and
it upserts the GroupSummary row — updating the existing row for the pair
or inserting one — iff additionally the provider returned a non-empty
summary text. -/
theorem auto_summarize_threshold (g : String) (sg : Option String) (resp : String) (st : Store) :
    ((maybeAutoSummarize g sg resp st).2 = true ↔
      10 < (getGroupIdeas g sg st.entries).length) ∧
    ((getGroupIdeas g sg st.entries).length ≤ 10 →
      maybeAutoSummarize g sg resp st = (st, false)) ∧
    (10 < (getGroupIdeas g sg st.entries).length → resp ≠ "" →
      (maybeAutoSummarize g sg resp st).1.entries = st.entries ∧
      (maybeAutoSummarize g sg resp st).1.summaries =
        (if st.summaries.any (fun r => r.groupName == g && r.subgroupName == sg) then
          updateFirst (fun r => r.groupName == g && r.subgroupName == sg)
            (fun r => { r with summary := resp }) st.summaries
        else st.summaries ++ [⟨g, sg, resp⟩])) := by
  refine ⟨?_, ?_, ?_⟩
  · simp only [maybeAutoSummarize]
    split_ifs <;> simp <;> omega
  · intro h
    simp only [maybeAutoSummarize]
    rw [if_pos h]
  · intro h hr
    simp only [maybeAutoSummarize]
    rw [if_neg (by omega), if_neg hr]
    split_ifs with h3 <;> simp

/-- C8 witness: the 11th idea triggers a request, and with a non-empty
provider response a GroupSummary row is inserted for the pair. -/
theorem auto_summarize_threshold_witness :
    10 < (getGroupIdeas "g" none elevenStore.entries).length ∧
    (maybeAutoSummarize "g" none "resumen del grupo" elevenStore).1.summaries =
      elevenStore.summaries ++ [⟨"g", none, "resumen del grupo"⟩] := by
  have h := (auto_summarize_threshold "g" none "resumen del grupo" elevenStore).2.2
    (by decide) (by decide)
  refine ⟨by decide, ?_⟩
  rw [h.2]
  rfl

/-! ### C7 (remind fallback on malformed timestamps) -/

/-- C7: for a `remind` classification whose `remind_at` is absent, empty
or unparseable, the handler never fails: it creates a reminder firing at
now + 5 minutes whose message is the result's idea, falling back to the
raw note content when the idea is empty (the embedding is total — the
source catches the parse exception, and nothing else in the branch can
raise). -/
theorem remind_malformed_timestamp_defaults (ai : AIResult) (note : NoteIn) (st : Store)
    (now : PyDateTime) (eo : Bool) (resp : String)
    (hSense : ai.makesSense.getD true = true)
    (hAct : ai.action.getD "add" = "remind")
    (hBad : ai.remindAt = none ∨ ai.remindAt = some "" ∨
      ∃ s, ai.remindAt = some s ∧ fromisoformat s = none) :
    processSingleAI ai note st now eo resp =
      ({ action := "remind", group := some "recordatorios",
         idea := some (if optTruthy ai.idea then ai.idea.getD "" else note.content),
         remindAt := some (now.addMinutes 5) },
       { st with
           reminders := st.reminders ++
             [{ id := st.nextReminderId,
                message := if optTruthy ai.idea then ai.idea.getD "" else note.content,
                fireAt := now.addMinutes 5, sent := false, entryId := none }],
           nextReminderId := st.nextReminderId + 1 }) := by
  have hdisp : processSingleAI ai note st now eo resp = processRemindAction ai note st now := by
    unfold processSingleAI
    rw [hSense, hAct]
    simp
  rw [hdisp]
  unfold processRemindAction
  rcases hBad with h | h | ⟨s, hs, hp⟩
  · rw [h]
  · rw [h]
    simp
  · rw [hs]
    by_cases hemp : s = ""
    · simp [hemp]
    · simp [hemp, hp]

/-- C7 witness: a remind result with an unparseable timestamp and an
empty idea yields a reminder at now + 5 minutes whose message is the raw
note content. -/
theorem remind_malformed_timestamp_defaults_witness :
    processSingleAI aiBadRemind noteShopping emptyStore nowMonday true "" =
      ({ action := "remind", group := some "recordatorios",
         idea := some noteShopping.content,
         remindAt := some (nowMonday.addMinutes 5) },
       { emptyStore with
           reminders := [⟨1, noteShopping.content, nowMonday.addMinutes 5, false, none⟩],
           nextReminderId := 2 }) := by
  have h := remind_malformed_timestamp_defaults aiBadRemind noteShopping emptyStore nowMonday
    true "" rfl rfl (Or.inr (Or.inr ⟨"mañana por la tarde", rfl, rfl⟩))
  rw [h]
  rfl

/-! ### C9 (weekday resolution) -/

/-- Every weekday number in `_WEEKDAYS_BACKEND` is at most 6. -/
theorem weekdayLookup_le_six (t : String) (w : Nat) (h : weekdayLookup t = some w) :
    w ≤ 6 := by
  unfold weekdayLookup at h
  rcases hfind : weekdaysBackend.find? (fun p => pyIn p.1 t) with _ | p
  · rw [hfind] at h
    cases h
  · rw [hfind] at h
    have hmem := List.mem_of_find?_eq_some hfind
    have hw : p.2 = w := by simpa using h
    rw [← hw]
    simp only [weekdaysBackend, List.mem_cons, List.not_mem_nil, or_false] at hmem
    rcases hmem with h | h | h | h | h | h | h | h | h <;> rw [h]
    all_goals decide

/-- C9: when the lowered note text contains a valid time pattern, no
tomorrow keyword, and names a weekday, the resolved date is the next
occurrence of that weekday strictly after today: the day offset is
`(weekday - today) % 7` when positive and `7` when today is that
weekday — never `0` — and the resulting date falls on the named
weekday, strictly after today. -/
theorem weekday_branch_next_occurrence (text : String) (now : PyDateTime) (h : Nat)
    (mo : Option Nat) (w : Nat)
    (hT : timeSearch (pyLower text) = some (h, mo))
    (hH : h ≤ 23) (hM : mo.getD 0 ≤ 59)
    (hNoTomorrow : pyIn "mañana" (pyLower text) = false)
    (hNoTomorrow2 : pyIn "manana" (pyLower text) = false)
    (hW : weekdayLookup (pyLower text) = some w) :
    autoFireAt text now =
      some ((now.replaceTime h (mo.getD 0)).addDays (weekdayDayOffset w now.weekday)) ∧
    1 ≤ weekdayDayOffset w now.weekday ∧
    weekdayDayOffset w now.weekday ≤ 7 ∧
    ((now.replaceTime h (mo.getD 0)).addDays (weekdayDayOffset w now.weekday)).weekday = w ∧
    now.day < ((now.replaceTime h (mo.getD 0)).addDays (weekdayDayOffset w now.weekday)).day ∧
    (now.weekday = w → weekdayDayOffset w now.weekday = 7) := by
  have hp1 : pyIn "pasado mañana" (pyLower text) = false := by
    cases hpm : pyIn "pasado mañana" (pyLower text)
    · rfl
    · have := pyIn_manana_of_pasado _ hpm
      simp [hNoTomorrow] at this
  have hp2 : pyIn "pasado manana" (pyLower text) = false := by
    cases hpm : pyIn "pasado manana" (pyLower text)
    · rfl
    · have := pyIn_manana_of_pasado2 _ hpm
      simp [hNoTomorrow2] at this
  have hw6 : w ≤ 6 := weekdayLookup_le_six _ _ hW
  refine ⟨?_, ?_, ?_, ?_, ?_, ?_⟩
  · unfold autoFireAt
    rw [hT]
    dsimp only
    rw [decide_eq_true hH, decide_eq_true hM, hNoTomorrow, hNoTomorrow2, hp1, hp2, hW]
    simp
  · simp only [weekdayDayOffset, PyDateTime.weekday]
    split_ifs <;> omega
  · simp only [weekdayDayOffset, PyDateTime.weekday]
    split_ifs <;> omega
  · simp only [weekdayDayOffset, PyDateTime.weekday, PyDateTime.addDays, PyDateTime.replaceTime]
    split_ifs with hd
    · have h0 : (0 : Int) ≤ ((w : Int) - ((now.day + 2) % 7 : Nat)) % 7 :=
        Int.emod_nonneg _ (by omega)
      have h7 : ((w : Int) - ((now.day + 2) % 7 : Nat)) % 7 < 7 :=
        Int.emod_lt_of_pos _ (by omega)
      omega
    · omega
  · simp only [weekdayDayOffset, PyDateTime.weekday, PyDateTime.addDays, PyDateTime.replaceTime]
    split_ifs <;> omega
  · intro htoday
    simp only [weekdayDayOffset]
    rw [htoday]
    simp

/-- C9 witness: `reunión el viernes a las 9:30` submitted on a Friday
at 10:00 resolves to the Friday one week later at 09:30, never the same
day. -/
theorem weekday_branch_next_occurrence_witness :
    autoFireAt "reunión el viernes a las 9:30" nowFriday =
      some ((nowFriday.replaceTime 9 30).addDays (weekdayDayOffset 4 nowFriday.weekday)) ∧
    weekdayDayOffset 4 nowFriday.weekday = 7 ∧
    autoFireAt "reunión el viernes a las 9:30" nowFriday = some ⟨739202, 9, 30, 0, 0⟩ := by
  have h := weekday_branch_next_occurrence "reunión el viernes a las 9:30" nowFriday 9
    (some 30) 4 rfl (by decide) (by decide) rfl rfl rfl
  exact ⟨h.1, h.2.2.2.2.2 rfl, rfl⟩

/-! ### C4 (scheduler fires each due reminder exactly once) -/

/-- In a reminder table with distinct ids, filtering by a predicate that
holds at `r` together with id-equality to `r` yields exactly `[r]`. -/
theorem reminder_filter_id_single (l : List Reminder) (r : Reminder) (p : Reminder → Bool)
    (hN : (l.map (fun x => x.id)).Nodup) (hm : r ∈ l) (hp : p r = true) :
    l.filter (fun x => p x && x.id == r.id) = [r] := by
  induction l with
  | nil => cases hm
  | cons a as ih =>
    rw [List.map_cons, List.nodup_cons] at hN
    rcases List.mem_cons.mp hm with rfl | hmem
    · rw [@List.filter_cons_of_pos _ (fun x => p x && x.id == r.id) r as (by simp [hp])]
      have hnil : as.filter (fun x => p x && x.id == r.id) = [] := by
        rw [List.filter_eq_nil_iff]
        intro x hx hcontra
        have hid : x.id = r.id := by
          have := (Bool.and_eq_true _ _).mp hcontra
          simpa using this.2
        exact hN.1 (hid ▸ List.mem_map.mpr ⟨x, hx, rfl⟩)
      rw [hnil]
    · have hne : ¬(fun x => p x && x.id == r.id) a = true := by
        intro hcontra
        have hid : a.id = r.id := by
          have := (Bool.and_eq_true _ _).mp hcontra
          simpa using this.2
        exact hN.1 (List.mem_map.mpr ⟨r, hmem, hid.symm⟩)
      rw [@List.filter_cons_of_neg _ (fun x => p x && x.id == r.id) a as hne]
      exact ih hN.2 hmem

/-- The delivery log of one poll, restricted to one id, is the map of
the due reminders with that id. -/
theorem checkReminders_log_by_id (rid : Nat) (n : PyDateTime) (f : Nat → Bool) (s : Store) :
    (checkReminders n f s).2.filter (fun q => q.1 == rid) =
      (s.reminders.filter (fun x => reminderDue n x && x.id == rid)).map
        (fun x => (x.id, f x.id)) := by
  simp only [checkReminders, List.filter_map, Function.comp]
  congr 1
  rw [List.filter_filter]
  exact List.filter_congr (fun x _ => Bool.and_comm _ _)

/-- Once every reminder with a given id is `sent`, a scheduler poll
attempts no delivery for that id and preserves the property. -/
theorem checkReminders_sent_invariant (rid : Nat) (n : PyDateTime) (f : Nat → Bool) (s : Store)
    (hInv : ∀ r' ∈ s.reminders, r'.id = rid → r'.sent = true) :
    ((checkReminders n f s).2.filter (fun q => q.1 == rid) = []) ∧
    (∀ r' ∈ (checkReminders n f s).1.reminders, r'.id = rid → r'.sent = true) := by
  constructor
  · rw [checkReminders_log_by_id, List.map_eq_nil_iff, List.filter_eq_nil_iff]
    intro x hx hcontra
    have hparts := (Bool.and_eq_true _ _).mp hcontra
    have hid : x.id = rid := by simpa using hparts.2
    have hdue := hparts.1
    have hsent : x.sent = true := hInv x hx hid
    rw [reminderDue, hsent] at hdue
    simp at hdue
  · intro r' hr' hid
    simp only [checkReminders, List.mem_map] at hr'
    rcases hr' with ⟨x, hx, hupd⟩
    by_cases hd : reminderDue n x = true
    · rw [if_pos hd] at hupd
      rw [← hupd]
    · rw [if_neg hd] at hupd
      subst hupd
      exact hInv x hx hid

/-- A sequence of further polls never again logs a delivery attempt for
an id whose reminders are all `sent`. -/
theorem runPolls_no_refire (rid : Nat) (polls : List (PyDateTime × (Nat → Bool))) (s : Store)
    (hInv : ∀ r' ∈ s.reminders, r'.id = rid → r'.sent = true) :
    (runPolls polls s).2.filter (fun q => q.1 == rid) = [] := by
  induction polls generalizing s with
  | nil => rfl
  | cons poll ps ih =>
    rcases poll with ⟨n, f⟩
    have hstep := checkReminders_sent_invariant rid n f s hInv
    simp only [runPolls, List.filter_append]
    rw [hstep.1, ih _ hstep.2]
    rfl

/-- C4: a reminder that is unsent and due at poll time has its delivery
attempted exactly once in that poll (whatever the delivery outcome), is
marked `sent` even when delivery fails, has its linked entry deleted
when it still resolves, and is never fired again by any sequence of
later polls. -/
theorem reminder_fired_once (st : Store) (r : Reminder) (now : PyDateTime) (f : Nat → Bool)
    (hN : (st.reminders.map (fun x => x.id)).Nodup)
    (hm : r ∈ st.reminders)
    (hsent : r.sent = false)
    (hdue : r.fireAt.le now = true) :
    ((checkReminders now f st).2.filter (fun q => q.1 == r.id)) = [(r.id, f r.id)] ∧
    (∀ r' ∈ (checkReminders now f st).1.reminders, r'.id = r.id → r'.sent = true) ∧
    (∀ eid, r.entryId = some eid → ∀ e ∈ (checkReminders now f st).1.entries, e.id ≠ eid) ∧
    (∀ polls, (runPolls polls (checkReminders now f st).1).2.filter
      (fun q => q.1 == r.id) = []) := by
  have hduer : reminderDue now r = true := by
    rw [reminderDue, hsent, hdue]
    rfl
  have hsentAfter : ∀ r' ∈ (checkReminders now f st).1.reminders, r'.id = r.id →
      r'.sent = true := by
    intro r' hr' hid
    simp only [checkReminders, List.mem_map] at hr'
    rcases hr' with ⟨x, hx, hupd⟩
    have hxid : x.id = r.id := by
      by_cases hd : reminderDue now x = true
      · rw [if_pos hd] at hupd
        rw [← hupd] at hid
        exact hid
      · rw [if_neg hd] at hupd
        exact hupd ▸ hid
    have hxr : x = r := List.inj_on_of_nodup_map hN hx hm hxid
    subst hxr
    rw [if_pos hduer] at hupd
    rw [← hupd]
  refine ⟨?_, hsentAfter, ?_, ?_⟩
  · rw [checkReminders_log_by_id,
      reminder_filter_id_single st.reminders r (reminderDue now) hN hm hduer]
    rfl
  · intro eid heid e he heq
    simp only [checkReminders, List.mem_filter] at he
    have h2 := he.2
    rw [Bool.not_eq_true'] at h2
    have hmemid : eid ∈ (st.reminders.filter (reminderDue now)).filterMap
        (fun x => x.entryId) :=
      List.mem_filterMap.mpr ⟨r, List.mem_filter.mpr ⟨hm, hduer⟩, heid⟩
    rw [← heq] at hmemid
    have helem := List.elem_iff.mpr hmemid
    simp only [List.contains] at h2
    rw [helem] at h2
    cases h2
  · intro polls
    exact runPolls_no_refire r.id polls _ hsentAfter

/-- C4 witness: the due reminder of `stSched` is delivered once (here
with a failing delivery), marked sent, its linked entry removed, and no
sequence of later polls logs it again. -/
theorem reminder_fired_once_witness :
    ((checkReminders nowMonday (fun _ => false) stSched).2.filter
      (fun q => q.1 == reminderDueW.id)) = [(reminderDueW.id, false)] ∧
    (∀ polls, (runPolls polls (checkReminders nowMonday (fun _ => false) stSched).1).2.filter
      (fun q => q.1 == reminderDueW.id) = []) := by
  have h := reminder_fired_once stSched reminderDueW nowMonday (fun _ => false)
    (by decide) (by simp [stSched]) rfl (by decide)
  exact ⟨h.1, h.2.2.2⟩
